import Mathlib

/-!
Verification of the note persistence and synchronization engine of
`src/quicknote.py` (class `NoteApp`), via a shallow embedding.

Modelling conventions:
* The filesystem directory of notes is an association list from filename to
  the parse result of the file: `some nd` when `json.load` succeeds and the
  file holds valid note data, `none` when the file is malformed and
  `json.load` raises.  The constant directory prefix (`os.path.join` with
  `notes_dir`) is dropped: it is shared by every path and does not affect
  lexicographic order or key identity, so keys are the file names.
* The in-memory cache `self.note_cache` is an association list from filename
  to `NoteData`.
* Fallible I/O (`os.remove`, writing with `open(..., 'w')`) is given an
  explicit success oracle parameter; a `False` oracle means the call raised
  and the corresponding `except` branch runs.
* `datetime.now().strftime("%Y%m%d%H%M%S")` is modelled as formatting a
  second-resolution numeric timestamp as a fixed-width 14-digit decimal
  string; later wall-clock seconds give a larger number.
* Qt signal plumbing: `notes_list.setCurrentRow` fires
  `currentItemChanged -> load_selected_note` exactly when the current item
  actually changes; `QListWidget.clear()` nulls the current item (the signal
  it fires passes `None`, on which `load_selected_note` returns at once, so
  it is elided).  The list widget's current item is the `selected` field.
* `print(...)` logging and purely visual work (stylesheets, stacked-widget
  page switching, focus) have no observable effect on the verified state and
  are dropped, except for `title_label`, which claims mention as part of the
  in-memory state.
-/

/-- One note's data: the four JSON fields written by `confirm_new_note`
(`title`, `content`, `created`, `updated`), timestamps as numbers. -/
structure NoteData where
  title : String
  content : String
  created : Nat
  updated : Nat
deriving Repr, DecidableEq

/-- Python dict lookup: `m[k]` (`some`) / key absent (`none`). -/
def lookupA {β : Type} : List (String × β) → String → Option β
  | [], _ => none
  | (k, v) :: rest, key => if k = key then some v else lookupA rest key

/-- Python dict assignment `m[k] = v` (update in place or append). -/
def insertA {β : Type} : List (String × β) → String → β → List (String × β)
  | [], key, v => [(key, v)]
  | (k, w) :: rest, key, v =>
      if k = key then (key, v) :: rest else (k, w) :: insertA rest key v

/-- Python `del m[k]`. -/
def eraseA {β : Type} : List (String × β) → String → List (String × β)
  | [], _ => []
  | (k, w) :: rest, key => if k = key then rest else (k, w) :: eraseA rest key

/-- The state of `NoteApp` that the persistence/sync engine touches:
the on-disk directory, the cache, the active note (`self.current_note`),
the editor buffer (`self.note_editor`), the header label, the new-note-mode
flag, the rendered list of note paths (top to bottom) and the list's
current item. -/
structure AppState where
  disk : List (String × Option NoteData)
  cache : List (String × NoteData)
  current_note : Option String
  editor : String
  title_label : String
  is_new_note_mode : Bool
  notes_list : List String
  selected : Option String
deriving Repr, DecidableEq

/-- `f.endswith('.json')`. -/
def endsWithJson (f : String) : Bool :=
  ".json".data.isSuffixOf f.data

/-- Lexicographic less-or-equal on code-point sequences: how Python compares
two strings.  (Executable by structural recursion; `strLe_iff_le` below shows
it is exactly Mathlib's order on `String`.) -/
def lexLe : List Char → List Char → Bool
  | [], _ => true
  | _ :: _, [] => false
  | a :: as, b :: bs =>
      if a < b then true
      else if b < a then false
      else lexLe as bs

/-- Python string comparison `a <= b` (lexicographic by code point). -/
def strLe (a b : String) : Bool :=
  lexLe a.data b.data

/-- `note_files.sort(reverse=True)`: descending lexicographic sort. -/
def sortDesc (l : List String) : List String :=
  List.insertionSort (fun a b => strLe b a = true) l

/-- `NoteApp.load_selected_note` (src/quicknote.py:555-588), called with the
new current item (`none` models a null item).  Returns early when the path is
already the active note; cancels new-note mode; reads the record from cache,
else from disk (caching it); a read/parse failure is logged and leaves the
state as is. -/
def load_selected_note (fp? : Option String) (st : AppState) : AppState :=
  match fp? with
  | none => st
  | some fp =>
    if st.current_note = some fp then st
    else
      let st := if st.is_new_note_mode then { st with is_new_note_mode := false } else st
      match lookupA st.cache fp with
      | some nd =>
          { st with title_label := nd.title, editor := nd.content,
                    current_note := some fp }
      | none =>
          match lookupA st.disk fp with
          | some (some nd) =>
              { st with cache := insertA st.cache fp nd,
                        title_label := nd.title, editor := nd.content,
                        current_note := some fp }
          | _ => st

/-- `notes_list.setCurrentRow` / selection restore: changing the current item
fires `currentItemChanged`, wired to `load_selected_note`; re-setting the same
current item fires nothing. -/
def setCurrentItem (fp? : Option String) (st : AppState) : AppState :=
  if st.selected = fp? then st
  else load_selected_note fp? { st with selected := fp? }

/-- The loop body of `NoteApp.load_notes` (src/quicknote.py:516-546) over the
sorted file names: per file, take the cached record if present, else parse the
file from disk and cache it; on parse failure log and skip the file.  Returns
the built list-widget contents and the final cache. -/
def buildList (disk : List (String × Option NoteData)) :
    List String → List (String × NoteData) → List String × List (String × NoteData)
  | [], c => ([], c)
  | fp :: rest, c =>
    match lookupA c fp with
    | some _ =>
        let r := buildList disk rest c
        (fp :: r.1, r.2)
    | none =>
        match lookupA disk fp with
        | some (some nd) =>
            let r := buildList disk rest (insertA c fp nd)
            (fp :: r.1, r.2)
        | _ => buildList disk rest c

/-- `NoteApp.load_notes` (src/quicknote.py:503-553): remember the current
item, clear the list, enumerate `.json` files, sort them descending, rebuild
the list skipping malformed files, then restore the remembered selection if
that path is still listed. -/
def load_notes (st : AppState) : AppState :=
  let current_path := st.selected
  let st0 := { st with selected := none, notes_list := ([] : List String) }
  let files := sortDesc ((st0.disk.map Prod.fst).filter (fun f => endsWithJson f))
  let r := buildList st0.disk files st0.cache
  let st1 := { st0 with notes_list := r.1, cache := r.2 }
  match current_path with
  | some cp => if cp ∈ st1.notes_list then setCurrentItem (some cp) st1 else st1
  | none => st1

/-- `NoteApp.create_new_note` (src/quicknote.py:440-454): switch to new-note
(title entry) mode, clearing the active note and the list selection. -/
def create_new_note (st : AppState) : AppState :=
  { st with title_label := "Create New Note", is_new_note_mode := true,
            current_note := none, selected := none }

/-- `NoteApp.perform_delete` (src/quicknote.py:412-438).  `removeOk` is the
success oracle for `os.remove`: when it is `false` the removal raises, the
`except` branch shows a warning (returned as `some` message), and everything
after `os.remove` in the `try` block is skipped. -/
def perform_delete (removeOk : Bool) (fp : String) (st : AppState) :
    AppState × Option String :=
  let st1 :=
    if st.current_note = some fp then
      { st with current_note := none, title_label := "Note Deleted", editor := "" }
    else st
  if removeOk then
    let st2 := { st1 with disk := eraseA st1.disk fp, cache := eraseA st1.cache fp }
    let st3 := load_notes st2
    let st4 :=
      if st3.notes_list.length > 0 then setCurrentItem st3.notes_list.head? st3
      else create_new_note st3
    (st4, none)
  else
    (st1, some "Could not delete note")

/-- The whitespace class Python's `str.strip()` removes, restricted to the
ASCII whitespace characters (space, tab, LF, CR, VT, FF). -/
def pyIsSpace (c : Char) : Bool :=
  c = ' ' || c = Char.ofNat 9 || c = Char.ofNat 10 || c = Char.ofNat 13 ||
  c = Char.ofNat 11 || c = Char.ofNat 12

/-- Python `s.strip()`: drop leading and trailing whitespace. -/
def pyStrip (s : String) : String :=
  ⟨((s.data.dropWhile pyIsSpace).reverse.dropWhile pyIsSpace).reverse⟩

/-- Python `s.replace(' ', '_')`: every space character (U+0020 only)
becomes an underscore. -/
def pyReplaceSpace (s : String) : String :=
  ⟨s.data.map (fun c => if c = ' ' then '_' else c)⟩

/-- Big-endian fixed-width decimal digits of `n`, `k` characters wide. -/
def padDigits : Nat → Nat → List Char
  | 0, _ => []
  | k + 1, n => Char.ofNat (48 + n / 10 ^ k) :: padDigits k (n % 10 ^ k)

/-- `datetime.now().strftime("%Y%m%d%H%M%S")`: the second-resolution
timestamp as a fixed 14-character digit string. -/
def fmtTimestamp (t : Nat) : String :=
  ⟨padDigits 14 t⟩

/-- The file name built at src/quicknote.py:463-465:
`f"{timestamp}_{title.replace(' ', '_')}.json"`. -/
def mkFilename (t : Nat) (title : String) : String :=
  fmtTimestamp t ++ "_" ++ pyReplaceSpace title ++ ".json"

/-- `NoteApp.confirm_new_note` (src/quicknote.py:456-501) with the title
input's text and the current timestamp as parameters: reject a title that is
empty after stripping; otherwise write the new record to disk and cache,
reload the list, make the new note active, select it in the list (the
selection signal hits the already-current guard), and clear the editor. -/
def confirm_new_note (now : Nat) (title_raw : String) (st : AppState) : AppState :=
  let title := pyStrip title_raw
  if title = "" then st
  else
    let fp := mkFilename now title
    let nd : NoteData := ⟨title, "", now, now⟩
    let st1 := { st with disk := insertA st.disk fp (some nd),
                         cache := insertA st.cache fp nd }
    let st2 := load_notes st1
    let st3 := { st2 with is_new_note_mode := false, title_label := title,
                          current_note := some fp }
    let st4 := if fp ∈ st3.notes_list then setCurrentItem (some fp) st3 else st3
    { st4 with editor := "" }

/-- `NoteApp.save_current_note` (src/quicknote.py:595-627), the autosave
tick's persist.  `writeOk` is the success oracle for the disk write (the
`open(..., 'w')`/`json.dump` pair); when it is `false` the write raises and
the `except` branch logs.  The returned flag records whether the tick reached
the disk-write statement at all (content considered changed). -/
def save_current_note (now : Nat) (writeOk : Bool) (st : AppState) :
    AppState × Bool :=
  match st.current_note with
  | none => (st, false)
  | some fp =>
    let content := st.editor
    match lookupA st.cache fp with
    | some nd =>
      if nd.content = content then (st, false)
      else
        let nd2 := { nd with content := content, updated := now }
        let st1 := { st with cache := insertA st.cache fp nd2 }
        if writeOk then
          ({ st1 with disk := insertA st1.disk fp (some nd2) }, true)
        else (st1, true)
    | none =>
      match lookupA st.disk fp with
      | some (some nd) =>
        let nd2 := { nd with content := content, updated := now }
        let st1 := { st with cache := insertA st.cache fp nd2 }
        if writeOk then
          ({ st1 with disk := insertA st1.disk fp (some nd2) }, true)
        else (st1, true)
      | _ => (st, false)

/-- The record-reading path shared by `load_selected_note` and the
`load_notes` loop (src/quicknote.py:519-526 and 571-578): cache first, then
disk; `none` when the file is absent or malformed.  This is what "load(path)"
observes. -/
def read_note_record (st : AppState) (fp : String) : Option NoteData :=
  match lookupA st.cache fp with
  | some nd => some nd
  | none =>
    match lookupA st.disk fp with
    | some (some nd) => some nd
    | _ => none

/-- Whether the on-disk file at `fp` exists and parses as note data. -/
def diskParses (disk : List (String × Option NoteData)) (fp : String) : Bool :=
  match lookupA disk fp with
  | some (some _) => true
  | _ => false

/-! ### Association-list lemmas -/

theorem lookupA_insertA_self {β : Type} (m : List (String × β)) (k : String) (v : β) :
    lookupA (insertA m k v) k = some v := by
  induction m with
  | nil => simp [insertA, lookupA]
  | cons kv rest ih =>
      obtain ⟨k0, w⟩ := kv
      by_cases h : k0 = k <;> simp [insertA, lookupA, h, ih]

theorem lookupA_insertA_ne {β : Type} (m : List (String × β)) (k k' : String) (v : β)
    (h : k ≠ k') : lookupA (insertA m k v) k' = lookupA m k' := by
  induction m with
  | nil => simp [insertA, lookupA, h]
  | cons kv rest ih =>
      obtain ⟨k0, w⟩ := kv
      by_cases h0 : k0 = k
      · subst h0
        simp [insertA, lookupA, h]
      · simp [insertA, lookupA, h0, ih]

/-! ### Concrete states for witnesses and counterexamples -/

/-- One note on disk and in cache; it is active and the editor holds newer
text than the persisted content. -/
def stA : AppState :=
  { disk := [("20250101000000_a.json", some ⟨"a", "hello", 1, 1⟩)],
    cache := [("20250101000000_a.json", ⟨"a", "hello", 1, 1⟩)],
    current_note := some "20250101000000_a.json",
    editor := "hello world", title_label := "a", is_new_note_mode := false,
    notes_list := ["20250101000000_a.json"],
    selected := some "20250101000000_a.json" }

/-- One note on disk, absent from the cache (cold cache), active, with the
editor holding exactly the persisted content. -/
def stB : AppState :=
  { disk := [("20250101000000_b.json", some ⟨"b", "same", 1, 1⟩)],
    cache := [], current_note := some "20250101000000_b.json",
    editor := "same", title_label := "b", is_new_note_mode := false,
    notes_list := ["20250101000000_b.json"],
    selected := some "20250101000000_b.json" }

/-- Two valid note files and one malformed one, nothing loaded yet. -/
def stC : AppState :=
  { disk := [("20250101000000_a.json", some ⟨"a", "A", 1, 1⟩),
             ("20250103000000_bad.json", none),
             ("20250102000000_b.json", some ⟨"b", "B", 2, 2⟩)],
    cache := [], current_note := none, editor := "", title_label := "",
    is_new_note_mode := false, notes_list := [], selected := none }

/-- An empty store in new-note mode. -/
def stD : AppState :=
  { disk := [], cache := [], current_note := none, editor := "",
    title_label := "Create New Note", is_new_note_mode := true,
    notes_list := [], selected := none }

/-- Two notes; the newer one is active and selected. -/
def stE : AppState :=
  { disk := [("20250101000000_a.json", some ⟨"a", "A", 1, 1⟩),
             ("20250102000000_b.json", some ⟨"b", "B", 2, 2⟩)],
    cache := [("20250102000000_b.json", ⟨"b", "B", 2, 2⟩)],
    current_note := some "20250102000000_b.json", editor := "B",
    title_label := "b", is_new_note_mode := false,
    notes_list := ["20250102000000_b.json", "20250101000000_a.json"],
    selected := some "20250102000000_b.json" }

/-! ### C1: state on delete failure -/

/-- C1 fails on the code: when the active note is deleted and `os.remove`
raises, the state is not the one from before the attempt — `perform_delete`
clears the active-note identity and the editor before attempting the file
removal, so at `stA` (whose editor holds "hello world") the failed delete
leaves a changed state. -/
theorem C1_counterexample :
    (perform_delete false "20250101000000_a.json" stA).1 ≠ stA ∧
    (perform_delete false "20250101000000_a.json" stA).1.editor = "" ∧
    (perform_delete false "20250101000000_a.json" stA).1.current_note = none := by
  decide

/-- C1 amended: if `delete(path)` fails because the underlying file removal
raises, the error is surfaced as a warning and the cache and the disk are
unchanged; if the deleted path was not the active note the whole state is
unchanged, but if it was, the active-note identity and the editor were
already cleared before the removal was attempted and stay cleared. -/
theorem C1_delete_failure_amended (st : AppState) (fp : String) :
    (perform_delete false fp st).2 = some "Could not delete note" ∧
    (perform_delete false fp st).1.cache = st.cache ∧
    (perform_delete false fp st).1.disk = st.disk ∧
    (st.current_note ≠ some fp → (perform_delete false fp st).1 = st) ∧
    (st.current_note = some fp →
      (perform_delete false fp st).1 =
        { st with current_note := none, editor := "", title_label := "Note Deleted" }) := by
  unfold perform_delete
  by_cases h : st.current_note = some fp <;> simp [h]

/-- Witness for C1's amended theorem at the concrete state `stA`. -/
theorem C1_witness :
    (perform_delete false "20250101000000_a.json" stA).1 =
      { stA with current_note := none, editor := "", title_label := "Note Deleted" } :=
  (C1_delete_failure_amended stA "20250101000000_a.json").2.2.2.2 rfl

/-! ### C2: autosave tick failure -/

/-- C2 fails on the code: at `stA`, when the disk write of the autosave tick
fails, the cache has nevertheless been mutated (in-memory state is not left
unchanged), the disk still holds the stale content, and the next tick is a
no-op — the write is not retried, because the comparison is made against the
already-updated cache. -/
theorem C2_counterexample :
    (save_current_note 5 false stA).1.cache ≠ stA.cache ∧
    (save_current_note 5 false stA).1.disk = stA.disk ∧
    save_current_note 6 true (save_current_note 5 false stA).1 =
      ((save_current_note 5 false stA).1, false) := by
  decide

/-- C2 amended: if the disk write of an autosave tick fails, the error is
caught and the tick skipped with the disk unchanged, but the cache has
already been updated with the new content and timestamp before the write, so
every later tick compares against the updated cache, sees no difference, and
does not retry the write. -/
theorem C2_autosave_failure_amended (st : AppState) (fp : String) (nd : NoteData)
    (now : Nat) (h1 : st.current_note = some fp) (h2 : lookupA st.cache fp = some nd)
    (h3 : ¬nd.content = st.editor) :
    (save_current_note now false st).1.disk = st.disk ∧
    (save_current_note now false st).1 =
      { st with cache :=
          insertA st.cache fp { nd with content := st.editor, updated := now } } ∧
    (∀ now2 b, save_current_note now2 b (save_current_note now false st).1 =
      ((save_current_note now false st).1, false)) := by
  have e1 : save_current_note now false st =
      ({ st with cache :=
          insertA st.cache fp { nd with content := st.editor, updated := now } }, true) := by
    simp [save_current_note, h1, h2, h3]
  refine ⟨by rw [e1], by rw [e1], ?_⟩
  intro now2 b
  rw [e1]
  simp [save_current_note, h1, lookupA_insertA_self]

/-- Witness for C2's amended theorem at the concrete state `stA`. -/
theorem C2_witness :
    (save_current_note 5 false stA).1 =
      { stA with cache :=
          insertA stA.cache "20250101000000_a.json" ⟨"a", "hello world", 1, 5⟩ } :=
  (C2_autosave_failure_amended stA "20250101000000_a.json" ⟨"a", "hello", 1, 1⟩ 5
    (by decide) (by decide) (by decide)).2.1

/-! ### C3: cold-cache persist -/

/-- C3 fails on the code: at `stB` the record is absent from the cache and
the editor content equals the persisted content, yet the tick reaches the
disk write (flag `true`) and changes the on-disk record (its `updated`
timestamp) — on a cold cache miss the code reads through from disk but never
compares before writing. -/
theorem C3_counterexample :
    lookupA stB.cache "20250101000000_b.json" = none ∧
    lookupA stB.disk "20250101000000_b.json" = some (some ⟨"b", "same", 1, 1⟩) ∧
    stB.editor = "same" ∧
    (save_current_note 7 true stB).2 = true ∧
    (save_current_note 7 true stB).1.disk ≠ stB.disk := by
  decide

/-- C3 amended: on a cold cache miss, persist reads the record through from
disk, but performs no comparison: it unconditionally overwrites `content`,
refreshes the `updated` timestamp, and writes the record to both cache and
disk — in particular persisting content equal to what is already on disk
still performs a disk write. -/
theorem C3_cold_cache_amended (st : AppState) (fp : String) (nd : NoteData)
    (now : Nat) (h1 : st.current_note = some fp) (h2 : lookupA st.cache fp = none)
    (h3 : lookupA st.disk fp = some (some nd)) :
    save_current_note now true st =
      ({ st with
          cache := insertA st.cache fp { nd with content := st.editor, updated := now },
          disk := insertA st.disk fp
            (some { nd with content := st.editor, updated := now }) },
        true) := by
  simp [save_current_note, h1, h2, h3]

/-- Witness for C3's amended theorem at the concrete state `stB`. -/
theorem C3_witness :
    save_current_note 7 true stB =
      ({ stB with
          cache := insertA stB.cache "20250101000000_b.json" ⟨"b", "same", 1, 7⟩,
          disk := insertA stB.disk "20250101000000_b.json" (some ⟨"b", "same", 1, 7⟩) },
        true) :=
  C3_cold_cache_amended stB "20250101000000_b.json" ⟨"b", "same", 1, 1⟩ 7
    rfl rfl rfl

/-! ### C5: idempotent persist -/

/-- C5: persisting twice in a row performs at most one actual disk write:
whatever the first (successful, `writeOk = true`) tick did, the second tick
leaves the state untouched and does not reach the disk-write statement,
because the content comparison against the cached record finds no change. -/
theorem C5_idempotent_persist (st : AppState) (now1 now2 : Nat) (b : Bool) :
    save_current_note now2 b (save_current_note now1 true st).1 =
      ((save_current_note now1 true st).1, false) := by
  cases hcn : st.current_note with
  | none => simp [save_current_note, hcn]
  | some fp =>
      cases hc : lookupA st.cache fp with
      | some nd =>
          by_cases he : nd.content = st.editor
          · simp [save_current_note, hcn, hc, he]
          · simp [save_current_note, hcn, hc, he, lookupA_insertA_self]
      | none =>
          cases hd : lookupA st.disk fp with
          | none => simp [save_current_note, hcn, hc, hd]
          | some o =>
              cases o with
              | none => simp [save_current_note, hcn, hc, hd]
              | some nd => simp [save_current_note, hcn, hc, hd, lookupA_insertA_self]

/-! ### C8: empty-title rejection -/

theorem pyStrip_of_all_space (s : String) (h : s.data.all pyIsSpace = true) :
    pyStrip s = "" := by
  have h1 : s.data.dropWhile pyIsSpace = [] := by
    rw [List.dropWhile_eq_nil_iff]
    exact fun x hx => List.all_eq_true.mp h x hx
  unfold pyStrip
  rw [h1]
  decide

/-- C8: confirming a title that is empty or all whitespace leaves the whole
state (store, cache, selection, everything) unchanged — the create is
silently rejected before any file is written. -/
theorem C8_empty_title_rejected (now : Nat) (title_raw : String) (st : AppState)
    (h : title_raw.data.all pyIsSpace = true) :
    confirm_new_note now title_raw st = st := by
  simp [confirm_new_note, pyStrip_of_all_space title_raw h]

/-- Witness for C8 at the whitespace-only title "   " and state `stA`. -/
theorem C8_witness : confirm_new_note 20250104000000 "   " stA = stA :=
  C8_empty_title_rejected 20250104000000 "   " stA (by decide)

/-! ### Preservation lemmas for the list-reload pipeline -/

theorem ite_new_mode (st : AppState) :
    (if st.is_new_note_mode then { st with is_new_note_mode := false } else st) =
      { st with is_new_note_mode := false } := by
  rcases st with ⟨d, c, cn, e, t, m, nl, sel⟩
  cases m <;> simp

theorem load_selected_note_disk (p : Option String) (st : AppState) :
    (load_selected_note p st).disk = st.disk := by
  cases p with
  | none => rfl
  | some fp =>
      simp only [load_selected_note, ite_new_mode]
      split
      · rfl
      · split
        · rfl
        · split
          · rfl
          · rfl

theorem load_selected_note_notes_list (p : Option String) (st : AppState) :
    (load_selected_note p st).notes_list = st.notes_list := by
  cases p with
  | none => rfl
  | some fp =>
      simp only [load_selected_note, ite_new_mode]
      split
      · rfl
      · split
        · rfl
        · split
          · rfl
          · rfl

theorem load_selected_note_selected (p : Option String) (st : AppState) :
    (load_selected_note p st).selected = st.selected := by
  cases p with
  | none => rfl
  | some fp =>
      simp only [load_selected_note, ite_new_mode]
      split
      · rfl
      · split
        · rfl
        · split
          · rfl
          · rfl

theorem load_selected_note_cache_preserve (p : Option String) (st : AppState)
    (k : String) (v : NoteData) (h : lookupA st.cache k = some v) :
    lookupA (load_selected_note p st).cache k = some v := by
  cases p with
  | none => exact h
  | some fp =>
      simp only [load_selected_note, ite_new_mode]
      split
      · exact h
      · split
        · exact h
        · rename_i hnone
          split
          · rename_i nd hd
            have hne : fp ≠ k := by
              intro e
              rw [e, h] at hnone
              exact Option.noConfusion hnone
            rw [lookupA_insertA_ne st.cache fp k nd hne]
            exact h
          · exact h

theorem load_selected_note_current (fp : String) (st : AppState)
    (h : (lookupA st.cache fp).isSome = true) :
    (load_selected_note (some fp) st).current_note = some fp := by
  simp only [load_selected_note, ite_new_mode]
  split
  · assumption
  · split
    · rfl
    · rename_i hl
      rw [hl] at h
      exact absurd h (by simp)

theorem setCurrentItem_disk (p : Option String) (st : AppState) :
    (setCurrentItem p st).disk = st.disk := by
  unfold setCurrentItem
  split
  · rfl
  · rw [load_selected_note_disk]

theorem setCurrentItem_notes_list (p : Option String) (st : AppState) :
    (setCurrentItem p st).notes_list = st.notes_list := by
  unfold setCurrentItem
  split
  · rfl
  · rw [load_selected_note_notes_list]

theorem setCurrentItem_cache_preserve (p : Option String) (st : AppState)
    (k : String) (v : NoteData) (h : lookupA st.cache k = some v) :
    lookupA (setCurrentItem p st).cache k = some v := by
  unfold setCurrentItem
  split
  · exact h
  · exact load_selected_note_cache_preserve p { st with selected := p } k v h

theorem setCurrentItem_current (p : String) (st : AppState)
    (hc : (lookupA st.cache p).isSome = true)
    (hsel : st.selected = some p → st.current_note = some p) :
    (setCurrentItem (some p) st).current_note = some p := by
  unfold setCurrentItem
  split
  · rename_i he
    exact hsel he
  · exact load_selected_note_current p { st with selected := some p } hc

theorem setCurrentItem_some_of_selected_none (p : String) (st : AppState)
    (hsel : st.selected = none) (hc : (lookupA st.cache p).isSome = true) :
    (setCurrentItem (some p) st).selected = some p ∧
    (setCurrentItem (some p) st).current_note = some p := by
  unfold setCurrentItem
  rw [hsel]
  rw [if_neg (by simp)]
  constructor
  · rw [load_selected_note_selected]
  · exact load_selected_note_current p { st with selected := some p } hc

theorem buildList_cache_preserve (d : List (String × Option NoteData))
    (fs : List String) (c : List (String × NoteData)) (k : String) (v : NoteData)
    (h : lookupA c k = some v) : lookupA (buildList d fs c).2 k = some v := by
  induction fs generalizing c with
  | nil => simpa [buildList] using h
  | cons fp rest ih =>
      cases hc : lookupA c fp with
      | some nd => simpa [buildList, hc] using ih c h
      | none =>
          cases hd : lookupA d fp with
          | none => simpa [buildList, hc, hd] using ih c h
          | some o =>
              cases o with
              | none => simpa [buildList, hc, hd] using ih c h
              | some nd =>
                  have hne : fp ≠ k := by
                    intro e
                    rw [e, h] at hc
                    exact Option.noConfusion hc
                  have h' : lookupA (insertA c fp nd) k = some v := by
                    rw [lookupA_insertA_ne c fp k nd hne]
                    exact h
                  simpa [buildList, hc, hd] using ih (insertA c fp nd) h'

theorem buildList_mem_cache (d : List (String × Option NoteData))
    (fs : List String) (c : List (String × NoteData)) (k : String)
    (h : k ∈ (buildList d fs c).1) :
    (lookupA (buildList d fs c).2 k).isSome = true := by
  induction fs generalizing c with
  | nil => simp [buildList] at h
  | cons fp rest ih =>
      cases hc : lookupA c fp with
      | some nd =>
          simp only [buildList, hc, List.mem_cons] at h ⊢
          rcases h with h | h
          · subst h
            rw [buildList_cache_preserve d rest c k nd hc]
            rfl
          · exact ih c h
      | none =>
          cases hd : lookupA d fp with
          | none =>
              simp only [buildList, hc, hd] at h ⊢
              exact ih c h
          | some o =>
              cases o with
              | none =>
                  simp only [buildList, hc, hd] at h ⊢
                  exact ih c h
              | some nd =>
                  simp only [buildList, hc, hd, List.mem_cons] at h ⊢
                  rcases h with h | h
                  · subst h
                    rw [buildList_cache_preserve d rest (insertA c k nd) k nd
                      (lookupA_insertA_self c k nd)]
                    rfl
                  · exact ih (insertA c fp nd) h

theorem load_notes_disk (st : AppState) : (load_notes st).disk = st.disk := by
  simp only [load_notes]
  split
  · split
    · rw [setCurrentItem_disk]
    · rfl
  · rfl

theorem load_notes_notes_list (st : AppState) :
    (load_notes st).notes_list =
      (buildList st.disk
        (sortDesc ((st.disk.map Prod.fst).filter (fun f => endsWithJson f)))
        st.cache).1 := by
  simp only [load_notes]
  split
  · split
    · rw [setCurrentItem_notes_list]
    · rfl
  · rfl

theorem load_notes_cache_from_build (st : AppState) (k : String) (v : NoteData)
    (h : lookupA (buildList st.disk
        (sortDesc ((st.disk.map Prod.fst).filter (fun f => endsWithJson f)))
        st.cache).2 k = some v) :
    lookupA (load_notes st).cache k = some v := by
  simp only [load_notes]
  split
  · split
    · exact setCurrentItem_cache_preserve _ _ k v h
    · exact h
  · exact h

theorem load_notes_cache_preserve (st : AppState) (k : String) (v : NoteData)
    (h : lookupA st.cache k = some v) :
    lookupA (load_notes st).cache k = some v :=
  load_notes_cache_from_build st k v
    (buildList_cache_preserve _ _ _ k v h)

theorem load_notes_mem_cache (st : AppState) (k : String)
    (h : k ∈ (load_notes st).notes_list) :
    (lookupA (load_notes st).cache k).isSome = true := by
  rw [load_notes_notes_list] at h
  obtain ⟨v, hv⟩ := Option.isSome_iff_exists.mp (buildList_mem_cache _ _ _ k h)
  rw [load_notes_cache_from_build st k v hv]
  rfl

theorem setCurrentItem_sel_eq_current (p : String) (st : AppState)
    (hsel : st.selected = none) (hc : (lookupA st.cache p).isSome = true) :
    (setCurrentItem (some p) st).selected = (setCurrentItem (some p) st).current_note := by
  rw [(setCurrentItem_some_of_selected_none p st hsel hc).1,
      (setCurrentItem_some_of_selected_none p st hsel hc).2]

theorem load_notes_selected_inv (st : AppState) :
    (load_notes st).selected = none ∨
      (load_notes st).selected = (load_notes st).current_note := by
  simp only [load_notes]
  split
  · rename_i cp hcp
    split
    · rename_i hmem
      right
      obtain ⟨v, hv⟩ := Option.isSome_iff_exists.mp (buildList_mem_cache _ _ _ cp hmem)
      apply setCurrentItem_sel_eq_current
      · dsimp only
      · dsimp only
        rw [hv]
        rfl
    · left
      rfl
  · left
    rfl

/-! ### C4: round-trip -/

theorem confirm_cache (now : Nat) (title_raw : String) (st : AppState)
    (h : ¬pyStrip title_raw = "") :
    lookupA (confirm_new_note now title_raw st).cache
        (mkFilename now (pyStrip title_raw)) =
      some ⟨pyStrip title_raw, "", now, now⟩ := by
  simp only [confirm_new_note, if_neg h]
  split
  · apply setCurrentItem_cache_preserve
    apply load_notes_cache_preserve
    exact lookupA_insertA_self st.cache (mkFilename now (pyStrip title_raw)) _
  · apply load_notes_cache_preserve
    exact lookupA_insertA_self st.cache (mkFilename now (pyStrip title_raw)) _

/-- C4: for every valid (non-empty after stripping) title, immediately after
creation the created note's record loads with content equal to the empty
string; and whenever a persist succeeds (the write does not fail and the
record is readable, so no exception is raised), loading the path afterwards
yields exactly the persisted buffer content. -/
theorem C4_round_trip :
    (∀ now title_raw st, ¬pyStrip title_raw = "" →
      (read_note_record (confirm_new_note now title_raw st)
          (mkFilename now (pyStrip title_raw))).map NoteData.content = some "") ∧
    (∀ now st fp, st.current_note = some fp →
      (read_note_record st fp).isSome = true →
      (read_note_record (save_current_note now true st).1 fp).map NoteData.content =
        some st.editor) := by
  constructor
  · intro now title_raw st h
    simp [read_note_record, confirm_cache now title_raw st h]
  · intro now st fp h1 h2
    cases hc : lookupA st.cache fp with
    | some nd =>
        by_cases he : nd.content = st.editor
        · simp [save_current_note, h1, hc, he, read_note_record]
        · simp [save_current_note, h1, hc, he, read_note_record, lookupA_insertA_self]
    | none =>
        cases hd : lookupA st.disk fp with
        | none => simp [read_note_record, hc, hd] at h2
        | some o =>
            cases o with
            | none => simp [read_note_record, hc, hd] at h2
            | some nd =>
                simp [save_current_note, h1, hc, hd, read_note_record,
                  lookupA_insertA_self]

/-- Witness for C4: a note created in the empty store loads as empty; after
persisting the buffer "hello world" at `stA`, the loaded content is exactly
"hello world". -/
theorem C4_witness :
    (read_note_record (confirm_new_note 20250105000000 "my note" stD)
        (mkFilename 20250105000000 (pyStrip "my note"))).map NoteData.content =
      some "" ∧
    (read_note_record (save_current_note 5 true stA).1
        "20250101000000_a.json").map NoteData.content = some "hello world" :=
  ⟨C4_round_trip.1 20250105000000 "my note" stD (by decide),
   C4_round_trip.2 5 stA "20250101000000_a.json" rfl (by decide)⟩

/-! ### C7: selection fallback after deleting the active note -/

/-- C7: when the active note is deleted and the delete succeeds, no warning
is raised and: if no notes remain the app enters new-note (ComposingNew)
mode with no active note; if notes remain, the first entry of the rebuilt
descending list (the most recent remaining note) becomes the active note. -/
theorem C7_selection_fallback (st : AppState) (fp : String)
    (h : st.current_note = some fp) :
    (perform_delete true fp st).2 = none ∧
    ((perform_delete true fp st).1.notes_list = [] →
       (perform_delete true fp st).1.is_new_note_mode = true ∧
       (perform_delete true fp st).1.current_note = none) ∧
    (∀ p rest, (perform_delete true fp st).1.notes_list = p :: rest →
       (perform_delete true fp st).1.current_note = some p) := by
  have e : ∃ st2 : AppState, perform_delete true fp st =
      ((if (load_notes st2).notes_list.length > 0
        then setCurrentItem (load_notes st2).notes_list.head? (load_notes st2)
        else create_new_note (load_notes st2)), none) := by
    refine ⟨{ st with current_note := none, title_label := "Note Deleted",
                      editor := "", disk := eraseA st.disk fp,
                      cache := eraseA st.cache fp }, ?_⟩
    simp [perform_delete, h]
  obtain ⟨st2, e⟩ := e
  rcases hnl : (load_notes st2).notes_list with _ | ⟨p, rest⟩
  · have hz : ¬(load_notes st2).notes_list.length > 0 := by
      rw [hnl]
      simp
    rw [e, if_neg hz]
    refine ⟨rfl, fun _ => ⟨rfl, rfl⟩, ?_⟩
    intro p rest hpr
    have hx : (load_notes st2).notes_list = p :: rest := hpr
    rw [hnl] at hx
    exact absurd hx (by simp)
  · have hpos : (load_notes st2).notes_list.length > 0 := by
      rw [hnl]
      simp
    rw [e, if_pos hpos]
    have hhead : (load_notes st2).notes_list.head? = some p := by
      rw [hnl]
      rfl
    rw [hhead]
    have hmem : p ∈ (load_notes st2).notes_list := by
      rw [hnl]
      exact List.mem_cons_self p rest
    have hc := load_notes_mem_cache st2 p hmem
    have hcur : (setCurrentItem (some p) (load_notes st2)).current_note = some p := by
      apply setCurrentItem_current p (load_notes st2) hc
      intro hselp
      rcases load_notes_selected_inv st2 with hs | hs
      · rw [hselp] at hs
        exact absurd hs (by simp)
      · rw [hselp] at hs
        exact hs.symm
    have hlist : (setCurrentItem (some p) (load_notes st2)).notes_list = p :: rest := by
      rw [setCurrentItem_notes_list, hnl]
    refine ⟨rfl, ?_, ?_⟩
    · intro hemp
      rw [hlist] at hemp
      exact absurd hemp (by simp)
    · intro p' rest' hpr
      rw [hlist] at hpr
      injection hpr with h1 h2
      rw [← h1]
      exact hcur

/-- Witness for C7 at `stE`: deleting the active newer note makes the
remaining older note active. -/
theorem C7_witness :
    (perform_delete true "20250102000000_b.json" stE).1.current_note =
      some "20250101000000_a.json" :=
  (C7_selection_fallback stE "20250102000000_b.json" rfl).2.2
    "20250101000000_a.json" [] (by decide)

/-! ### C9: corrupt-file resilience -/

theorem buildList_filter (d : List (String × Option NoteData)) (fs : List String)
    (c : List (String × NoteData)) :
    (buildList d fs c).1 =
      fs.filter (fun fp => (lookupA c fp).isSome || diskParses d fp) := by
  induction fs generalizing c with
  | nil => simp [buildList]
  | cons fp rest ih =>
      cases hc : lookupA c fp with
      | some nd =>
          rw [List.filter_cons,
            if_pos (show ((lookupA c fp).isSome || diskParses d fp) = true by
              rw [hc]; rfl)]
          simp only [buildList, hc]
          rw [ih c]
      | none =>
          cases hd : lookupA d fp with
          | some o =>
              cases o with
              | some nd =>
                  rw [List.filter_cons,
                    if_pos (show ((lookupA c fp).isSome || diskParses d fp) = true by
                      rw [hc]; simp [diskParses, hd])]
                  simp only [buildList, hc, hd]
                  rw [ih (insertA c fp nd)]
                  refine congrArg (fp :: ·) (List.filter_congr ?_)
                  intro x hx
                  by_cases hxfp : x = fp
                  · subst hxfp
                    simp [lookupA_insertA_self, hc, diskParses, hd]
                  · rw [lookupA_insertA_ne c fp x nd (fun e => hxfp e.symm)]
              | none =>
                  rw [List.filter_cons,
                    if_neg (show ¬((lookupA c fp).isSome || diskParses d fp) = true by
                      rw [hc]; simp [diskParses, hd])]
                  simp only [buildList, hc, hd]
                  exact ih c
          | none =>
              rw [List.filter_cons,
                if_neg (show ¬((lookupA c fp).isSome || diskParses d fp) = true by
                  rw [hc]; simp [diskParses, hd])]
              simp only [buildList, hc, hd]
              exact ih c

/-- C9: starting from an unpopulated cache, the rebuilt list is exactly the
(descending-sorted) enumeration of the `.json` files whose contents parse as
note data — each malformed file is skipped individually and nothing aborts
the listing. -/
theorem C9_corrupt_file_resilience (st : AppState) (h : st.cache = []) :
    (load_notes st).notes_list =
      (sortDesc ((st.disk.map Prod.fst).filter (fun f => endsWithJson f))).filter
        (fun fp => diskParses st.disk fp) := by
  rw [load_notes_notes_list, h, buildList_filter]
  apply List.filter_congr
  intro x hx
  simp [lookupA]

/-- Witness for C9 at `stC`: one malformed file among two valid ones yields
exactly the two valid notes, newest first — a list of length 2. -/
theorem C9_witness :
    (load_notes stC).notes_list = ["20250102000000_b.json", "20250101000000_a.json"] ∧
    (load_notes stC).notes_list.length = 2 := by
  constructor <;> rw [C9_corrupt_file_resilience stC rfl] <;> decide

/-! ### Order machinery: the embedded string order agrees with Mathlib's -/

theorem lexLe_iff_not_lex : ∀ (u v : List Char),
    lexLe u v = true ↔ ¬List.Lex (· < ·) v u
  | [], v => by
      constructor
      · intro _ hl
        cases hl
      · intro _
        rfl
  | a :: as, [] => by
      constructor
      · intro h
        simp [lexLe] at h
      · intro h
        exact absurd List.Lex.nil h
  | a :: as, b :: bs => by
      by_cases hab : a < b
      · constructor
        · intro _ hl
          cases hl with
          | rel hr => exact absurd hab (lt_asymm hr)
          | cons ht => exact lt_irrefl _ hab
        · intro _
          simp [lexLe, hab]
      · by_cases hba : b < a
        · constructor
          · intro hle
            simp [lexLe, hab, hba] at hle
          · intro hl
            exact absurd (List.Lex.rel hba) hl
        · have hch : a = b := le_antisymm (not_lt.mp hba) (not_lt.mp hab)
          subst hch
          constructor
          · intro hle hl
            cases hl with
            | rel hr => exact lt_irrefl _ hr
            | cons ht =>
                have hle' : lexLe as bs = true := by
                  simpa [lexLe, lt_irrefl] using hle
                exact (lexLe_iff_not_lex as bs).mp hle' ht
          · intro hl
            have hnl : ¬List.Lex (· < ·) bs as := fun hx => hl (List.Lex.cons hx)
            simp [lexLe, lt_irrefl]
            exact (lexLe_iff_not_lex as bs).mpr hnl

theorem strLe_iff_le (a b : String) : strLe a b = true ↔ a ≤ b := by
  have hbridge : b < a ↔ List.Lex (· < ·) b.data a.data :=
    (String.lt_iff_toList_lt).trans ⟨fun hx => hx, fun hx => hx⟩
  rw [show strLe a b = lexLe a.data b.data from rfl, lexLe_iff_not_lex, ← hbridge]
  exact not_lt

theorem sortDesc_sorted (l : List String) :
    (sortDesc l).Pairwise (fun a b => strLe b a = true) := by
  haveI h1 : IsTotal String (fun a b => strLe b a = true) := ⟨fun a b => by
    rcases le_total b a with h | h
    · exact Or.inl ((strLe_iff_le b a).mpr h)
    · exact Or.inr ((strLe_iff_le a b).mpr h)⟩
  haveI h2 : IsTrans String (fun a b => strLe b a = true) := ⟨fun a b c hab hbc =>
    (strLe_iff_le c a).mpr
      (le_trans ((strLe_iff_le c b).mp hbc) ((strLe_iff_le b a).mp hab))⟩
  exact List.sorted_insertionSort _ l

theorem sortDesc_perm (l : List String) : List.Perm (sortDesc l) l :=
  List.perm_insertionSort _ l

/-! ### Digit-string lemmas for the timestamp prefix -/

theorem digitChar_lt : ∀ a : Nat, a < 10 → ∀ b : Nat, b < 10 → a < b →
    Char.ofNat (48 + a) < Char.ofNat (48 + b) := by decide

theorem digitChar_ne_space : ∀ d : Nat, d < 10 → ¬(' ' = Char.ofNat (48 + d)) := by
  decide

theorem padDigits_lt (k : Nat) : ∀ (a b : Nat) (r1 r2 : List Char),
    a < 10 ^ k → b < 10 ^ k → a < b →
    List.Lex (· < ·) (padDigits k a ++ r1) (padDigits k b ++ r2) := by
  induction k with
  | zero =>
      intro a b r1 r2 ha hb hab
      simp [pow_zero] at ha hb
      omega
  | succ k ih =>
      intro a b r1 r2 ha hb hab
      have hpow : 0 < 10 ^ k := pow_pos (by norm_num) k
      have hda : a / 10 ^ k < 10 :=
        (Nat.div_lt_iff_lt_mul hpow).mpr (by rw [mul_comm, ← pow_succ]; exact ha)
      have hdb : b / 10 ^ k < 10 :=
        (Nat.div_lt_iff_lt_mul hpow).mpr (by rw [mul_comm, ← pow_succ]; exact hb)
      have hle : a / 10 ^ k ≤ b / 10 ^ k := Nat.div_le_div_right (le_of_lt hab)
      rw [show padDigits (k + 1) a =
            Char.ofNat (48 + a / 10 ^ k) :: padDigits k (a % 10 ^ k) from rfl,
          show padDigits (k + 1) b =
            Char.ofNat (48 + b / 10 ^ k) :: padDigits k (b % 10 ^ k) from rfl,
          List.cons_append, List.cons_append]
      rcases lt_or_eq_of_le hle with hlt | heq
      · exact List.Lex.rel (digitChar_lt _ hda _ hdb hlt)
      · have hmod : a % 10 ^ k < b % 10 ^ k := by
          have e1 := Nat.div_add_mod a (10 ^ k)
          have e2 := Nat.div_add_mod b (10 ^ k)
          have hab' := hab
          rw [← e1, ← e2, heq] at hab'
          exact Nat.lt_of_add_lt_add_left hab'
        rw [heq]
        exact List.Lex.cons (ih _ _ r1 r2 (Nat.mod_lt _ hpow) (Nat.mod_lt _ hpow) hmod)

theorem padDigits_digits : ∀ (k n : Nat), n < 10 ^ k →
    ∀ c ∈ padDigits k n, ∃ d, d < 10 ∧ c = Char.ofNat (48 + d) := by
  intro k
  induction k with
  | zero =>
      intro n hn c hc
      simp [padDigits] at hc
  | succ k ih =>
      intro n hn c hc
      have hpow : 0 < 10 ^ k := pow_pos (by norm_num) k
      rw [show padDigits (k + 1) n =
            Char.ofNat (48 + n / 10 ^ k) :: padDigits k (n % 10 ^ k) from rfl] at hc
      rcases List.mem_cons.mp hc with h1 | h2
      · refine ⟨n / 10 ^ k, ?_, h1⟩
        exact (Nat.div_lt_iff_lt_mul hpow).mpr (by rw [mul_comm, ← pow_succ]; exact hn)
      · exact ih (n % 10 ^ k) (Nat.mod_lt _ hpow) c h2

theorem mkFilename_data (t : Nat) (title : String) :
    (mkFilename t title).data =
      padDigits 14 t ++ ('_' :: ((pyReplaceSpace title).data ++ ".json".data)) := by
  show (fmtTimestamp t ++ "_" ++ pyReplaceSpace title ++ ".json").data = _
  rw [String.data_append, String.data_append, String.data_append]
  rw [show (fmtTimestamp t).data = padDigits 14 t from rfl]
  rw [show ("_" : String).data = ['_'] from rfl]
  simp [List.append_assoc]

theorem mkFilename_lt (t1 t2 : Nat) (s1 s2 : String) (h12 : t1 < t2)
    (h2 : t2 < 10 ^ 14) : mkFilename t1 s1 < mkFilename t2 s2 := by
  have hlex : List.Lex (· < ·) (mkFilename t1 s1).data (mkFilename t2 s2).data := by
    rw [mkFilename_data, mkFilename_data]
    exact padDigits_lt 14 t1 t2 _ _ (lt_trans h12 h2) h2 h12
  exact (String.lt_iff_toList_lt).mpr hlex

/-! ### C6: descending path order equals reverse-chronological creation -/

/-- C6: with distinct filenames on disk (true of any directory), the rebuilt
list is in strictly descending path order; and because every generated path
starts with the fixed-width second-resolution creation timestamp, a note
created at a later second (any titles) always has the lexicographically
larger path, so descending path order is descending creation order. -/
theorem C6_ordering (st : AppState) (h : (st.disk.map Prod.fst).Nodup) :
    (load_notes st).notes_list.Pairwise (fun a b => b < a) ∧
    (∀ t1 t2 s1 s2, t1 < t2 → t2 < 10 ^ 14 →
      mkFilename t1 s1 < mkFilename t2 s2) := by
  constructor
  · rw [load_notes_notes_list, buildList_filter]
    apply List.Pairwise.filter
    have hnd : (sortDesc ((st.disk.map Prod.fst).filter
        (fun f => endsWithJson f))).Nodup :=
      ((sortDesc_perm _).nodup_iff).mpr (h.filter _)
    have hs := sortDesc_sorted ((st.disk.map Prod.fst).filter (fun f => endsWithJson f))
    refine (hs.and hnd).imp ?_
    rintro a b ⟨hle, hne⟩
    exact lt_of_le_of_ne ((strLe_iff_le b a).mp hle) (fun e => hne e.symm)
  · intro t1 t2 s1 s2 h12 h2
    exact mkFilename_lt t1 t2 s1 s2 h12 h2

/-- Witness for C6 at `stC`, plus a concrete later-created note getting the
larger path. -/
theorem C6_witness :
    (load_notes stC).notes_list.Pairwise (fun a b => b < a) ∧
    mkFilename 20250101000000 "x" < mkFilename 20250102000000 "y" :=
  ⟨(C6_ordering stC (by decide)).1,
   (C6_ordering stC (by decide)).2 20250101000000 20250102000000 "x" "y"
     (by norm_num) (by norm_num)⟩

/-! ### C10: filename generation -/

/-- C10 fails on the code: `title.replace(' ', '_')` replaces only the space
character, so a created note whose title contains a tab produces a stored
filename that still contains whitespace. -/
theorem C10_counterexample :
    ((confirm_new_note 20250101000000 "a\tb" stD).disk.map Prod.fst).any
        (fun f => f.data.any pyIsSpace) = true := by
  decide

/-- C10 amended: create(title) stores the note under the path built from the
second-resolution timestamp, an underscore, the title with every space
character (U+0020 only) replaced by an underscore, and the ".json" suffix;
consequently the generated filename contains no space character — but other
whitespace (such as tabs) in the title is preserved. -/
theorem C10_filename_amended (now : Nat) (title_raw : String) (st : AppState)
    (h : ¬pyStrip title_raw = "") (hnow : now < 10 ^ 14) :
    lookupA (confirm_new_note now title_raw st).disk
        (mkFilename now (pyStrip title_raw)) =
      some (some ⟨pyStrip title_raw, "", now, now⟩) ∧
    ' ' ∉ (mkFilename now (pyStrip title_raw)).data := by
  constructor
  · simp only [confirm_new_note, if_neg h]
    split
    · rw [setCurrentItem_disk, load_notes_disk]
      exact lookupA_insertA_self st.disk _ _
    · rw [load_notes_disk]
      exact lookupA_insertA_self st.disk _ _
  · rw [mkFilename_data]
    intro hmem
    rcases List.mem_append.mp hmem with hmem1 | hmem2
    · obtain ⟨d, hd10, hcd⟩ := padDigits_digits 14 now hnow ' ' hmem1
      exact digitChar_ne_space d hd10 hcd
    · rcases List.mem_cons.mp hmem2 with h1 | hmem3
      · exact absurd h1 (by decide)
      rcases List.mem_append.mp hmem3 with hmem4 | hmem5
      · obtain ⟨x, hx, hfx⟩ := List.mem_map.mp hmem4
        by_cases hxs : x = ' '
        · rw [if_pos hxs] at hfx
          exact absurd hfx (by decide)
        · rw [if_neg hxs] at hfx
          exact hxs hfx
      · exact absurd hmem5 (by decide)

/-- Witness for C10's amended theorem at a concrete state and title. -/
theorem C10_witness :
    lookupA (confirm_new_note 20250106000000 "my note" stD).disk
        (mkFilename 20250106000000 (pyStrip "my note")) =
      some (some ⟨pyStrip "my note", "", 20250106000000, 20250106000000⟩) ∧
    ' ' ∉ (mkFilename 20250106000000 (pyStrip "my note")).data :=
  C10_filename_amended 20250106000000 "my note" stD (by decide) (by norm_num)
